import Mathlib

/-!
# Verification of the rn-toast admission/sequencing controller

This file gives a shallow embedding of the toast admission/sequencing logic
of the rn-toast repository and proves the specification claims about it.

The repository contains two parallel implementations of the manager
singleton:

* the legacy all-in-one manager in src/Toast.tsx
  (class ToastManagerSingleton there), embedded in namespace
  LegacyManager below;
* the modular manager in src/managers/ToastManager.ts (class
  ToastManagerSingleton, the one imported by src/hooks/useToast.ts and
  src/components), embedded in namespace ModularManager below.

Both classes contain a textually identical private processQueue method,
embedded once as processQueue.  JS timestamps (Date.now()) are threaded
as an explicit Nat parameter now.  Calls into the display driver
(this.toastRef.show(...)) are recorded in a displayed trace on the
state; the driver reference itself is modelled as an Option Unit.
-/

set_option autoImplicit false

/-- Models the JS test message.trim() === "" used throughout the source:
trim removes leading and trailing whitespace, so the trimmed string is
empty exactly when every character of the string is whitespace. -/
def trimEmpty (s : String) : Bool := s.data.all Char.isWhitespace

/-- Toast kinds, from src/types/index.ts. -/
inductive ToastType where
  | info
  | success
  | error
deriving DecidableEq, Repr

/-- Per-call options, from src/types/index.ts.  A JS field that may be
undefined is an Option. -/
structure ToastOptions where
  duration : Option Nat := none
  animationDuration : Option Nat := none
deriving DecidableEq, Repr

/-- A queued/requested toast: message, kind and options as stored in the
managers' queue entries. -/
structure Entry where
  message : String
  kind : ToastType := ToastType.info
  options : Option ToastOptions := none
deriving DecidableEq, Repr

/-- THROTTLE_DELAY from src/constants/index.ts (also duplicated in
src/Toast.tsx). -/
def THROTTLE_DELAY : Nat := 300

/-- MAX_QUEUE_SIZE from src/constants/index.ts (also duplicated in
src/Toast.tsx). -/
def MAX_QUEUE_SIZE : Nat := 2

/-- State of a manager singleton: the fields of class
ToastManagerSingleton, plus a displayed trace recording every
this.toastRef.show(...) call the manager makes.  The listeners set is
modelled by its size (waiters); every listener ever registered is the
same closure, one that just calls this.processQueue(). -/
structure MgrState where
  toastRef : Option Unit
  isAnimating : Bool
  queue : List Entry
  lastToastTime : Nat
  waiters : Nat
  displayed : List Entry
deriving DecidableEq, Repr

/-- The freshly constructed singleton state (field initialisers of
ToastManagerSingleton). -/
def initState : MgrState :=
  { toastRef := none, isAnimating := false, queue := [], lastToastTime := 0,
    waiters := 0, displayed := [] }

/-- Inner loop of processQueue, structurally recursive on the queue.
Mirrors: if (!isAnimating and queue nonempty and toastRef) then shift the
oldest entry; display it when its trimmed message is non-empty, setting
isAnimating and lastToastTime; otherwise recurse on the rest. -/
def processQueueGo (now : Nat) : List Entry → MgrState → MgrState
  | [], s => s
  | t :: rest, s =>
    if s.isAnimating = true then s
    else if s.toastRef = none then s
    else if trimEmpty t.message = true then
      processQueueGo now rest { s with queue := rest }
    else
      { s with queue := rest, isAnimating := true, lastToastTime := now,
               displayed := s.displayed ++ [t] }

/-- The private processQueue method, identical in src/Toast.tsx (lines
101-117) and src/managers/ToastManager.ts (lines 36-52). -/
def processQueue (now : Nat) (s : MgrState) : MgrState :=
  processQueueGo now s.queue s

namespace LegacyManager

/-- show of the legacy manager in src/Toast.tsx (lines 126-161):
validate the message; within the throttle window enqueue (capacity
permitting) and return; otherwise display immediately when a driver is
registered and no animation runs; otherwise enqueue (capacity
permitting), registering a readiness waiter when no driver is
registered. -/
def show' (now : Nat) (e : Entry) (s : MgrState) : MgrState :=
  if trimEmpty e.message = true then s
  else if now - s.lastToastTime < THROTTLE_DELAY then
    if s.queue.length < MAX_QUEUE_SIZE then { s with queue := s.queue ++ [e] }
    else s
  else if s.toastRef.isSome && !s.isAnimating then
    { s with isAnimating := true, lastToastTime := now,
             displayed := s.displayed ++ [e] }
  else if s.queue.length < MAX_QUEUE_SIZE then
    { s with queue := s.queue ++ [e],
             waiters := if s.toastRef = none then s.waiters + 1 else s.waiters }
  else s

/-- setToastRef of the legacy manager in src/Toast.tsx (lines 80-90): a
null argument is ignored entirely; a non-null argument is stored, every
pending listener is invoked (each calls processQueue), the listener set
is cleared, and processQueue runs once more. -/
def setToastRef (r : Option Unit) (now : Nat) (s : MgrState) : MgrState :=
  match r with
  | none => s
  | some _ =>
    let s1 := { s with toastRef := r }
    let s2 := (processQueue now)^[s1.waiters] s1
    let s3 := { s2 with waiters := 0 }
    processQueue now s3

/-- setAnimating of the legacy manager in src/Toast.tsx (lines 93-98):
store the flag and, when it is cleared, run processQueue. -/
def setAnimating (b : Bool) (now : Nat) (s : MgrState) : MgrState :=
  let s1 := { s with isAnimating := b }
  if b = false then processQueue now s1 else s1

end LegacyManager

namespace ModularManager

/-- show of the modular manager in src/managers/ToastManager.ts (lines
61-81): validate the message; return unchanged when within the throttle
window or while animating; otherwise record lastToastTime and, only if a
driver is registered, display. -/
def show' (now : Nat) (e : Entry) (s : MgrState) : MgrState :=
  if trimEmpty e.message = true then s
  else if now - s.lastToastTime < THROTTLE_DELAY ∨ s.isAnimating = true then s
  else
    let s1 := { s with lastToastTime := now }
    match s1.toastRef with
    | some _ => { s1 with isAnimating := true, displayed := s1.displayed ++ [e] }
    | none => s1

/-- setToastRef of the modular manager in src/managers/ToastManager.ts
(lines 27-29): plain assignment of the reference. -/
def setToastRef (r : Option Unit) (s : MgrState) : MgrState :=
  { s with toastRef := r }

/-- setAnimating of the modular manager in src/managers/ToastManager.ts
(lines 31-33): plain assignment of the flag, no drain. -/
def setAnimating (b : Bool) (s : MgrState) : MgrState :=
  { s with isAnimating := b }

end ModularManager

/-- The effect on manager state of the wrapped callback passed by hide
to this.toastRef.hide in both managers: clear isAnimating, run the
caller's callback, then processQueue.  When no driver is registered,
hide does nothing.  This models the state transition once the wrapped
callback has run (the caller's own callback is treated as opaque). -/
def hideWrapped (now : Nat) (s : MgrState) : MgrState :=
  match s.toastRef with
  | none => s
  | some _ => processQueue now { s with isAnimating := false }

/-- showToast of src/hooks/useToast.ts: skip empty messages, otherwise
delegate to the modular manager's show. -/
def hookShowToast (now : Nat) (e : Entry) (s : MgrState) : MgrState :=
  if trimEmpty e.message = true then s
  else ModularManager.show' now e s

/-- A single reanimated animation command on a shared value: the value it
animates to, the delay before it starts, and its duration.  Targets and
times are rationals, mirroring JS number arithmetic on the millisecond
values involved. -/
structure Anim where
  target : ℚ
  delay : ℚ
  duration : ℚ
deriving DecidableEq, Repr

/-- Models reanimated's withTiming(target, duration): an immediate
animation. -/
def withTiming (target : ℚ) (duration : ℚ) : Anim :=
  { target := target, delay := 0, duration := duration }

/-- Models reanimated's withDelay(delayMs, animation). -/
def withDelay (d : ℚ) (a : Anim) : Anim :=
  { a with delay := d }

/-- ICON_SIZE from src/constants/index.ts. -/
def ICON_SIZE : ℚ := 20

/-- PADDING from src/constants/index.ts. -/
def PADDING : ℚ := 12

/-- CONTAINER_SIZE from src/constants/index.ts: the collapsed baseline
width of the toast container. -/
def CONTAINER_SIZE : ℚ := ICON_SIZE + PADDING * 2

/-- Models the JS expression opt || dflt for an optional numeric option:
undefined and the falsy value 0 both fall back to the default.  Used by
the component for options?.duration and options?.animationDuration
(src/components/Toast.tsx lines 71-73). -/
def orDefault (v : Option Nat) (dflt : Nat) : Nat :=
  match v with
  | none => dflt
  | some x => if x = 0 then dflt else x

/-- The component's config state (interface ToastConfig in
src/types/index.ts). -/
structure ToastConfig where
  text : Option String
  type : Option ToastType
  visible : Bool
  duration : Nat
  animationDuration : Nat
deriving DecidableEq, Repr

/-- The observable effects of the component's showToast: the new config,
the scheduled entry transition on transY and the auto-hide timer delay.
-/
structure ShowFx where
  config : ToastConfig
  entry : Anim
  autoHideAfterMs : Nat
deriving DecidableEq, Repr

/-- The observable effects of the component's hideToast: which pending
work is cancelled, the three reverse animation commands, whether the
caller's callback runs immediately (the already-hidden early return),
and whether the completion handler attached to the position command
fires the callback and resets the config to hidden. -/
structure HideFx where
  clearedTimer : Bool
  cancelledPos : Bool
  cancelledWidth : Bool
  cancelledOpacity : Bool
  opacityAnim : Option Anim
  widthAnim : Option Anim
  posAnim : Option Anim
  callbackNow : Bool
  firesCallbackOnComplete : Bool
  resetsToHidden : Bool
deriving DecidableEq, Repr

namespace ToastComponent

/-- showToast of src/components/Toast.tsx (lines 152-199): validate the
text (resetting the animation flag when empty), otherwise clear the
timer, cancel running animations, mark animating (which reports
setAnimating(true) to the modular manager), set the config, schedule the
entry transition of transY to 80 over animationDuration, and arm the
auto-hide timer for displayDuration. -/
def showToast (text : String) (k : ToastType)
    (animationDuration displayDuration : Nat) (s : MgrState) :
    MgrState × Option ShowFx :=
  if trimEmpty text = true then (ModularManager.setAnimating false s, none)
  else
    (ModularManager.setAnimating true s,
     some { config := { text := some text, type := some k, visible := true,
                        duration := displayDuration,
                        animationDuration := animationDuration },
            entry := withTiming 80 (animationDuration : ℚ),
            autoHideAfterMs := displayDuration })

/-- The show function the component registers as the driver refObject in
src/components/Toast.tsx (lines 84-99): skip empty messages (resetting
the animation flag), resolve the durations from the options with the
JS or-fallback against the mount defaults, then run showToast. -/
def show' (defaultDuration defaultAnimationDuration : Nat) (msg : String)
    (k : ToastType) (options : Option ToastOptions) (s : MgrState) :
    MgrState × Option ShowFx :=
  if trimEmpty msg = true then (ModularManager.setAnimating false s, none)
  else
    showToast msg k
      (orDefault (options.bind ToastOptions.animationDuration)
        defaultAnimationDuration)
      (orDefault (options.bind ToastOptions.duration) defaultDuration) s

/-- hideToast of src/components/Toast.tsx (lines 202-244).  The flag
alreadyHidden stands for the early-return test
isAnimating.current being false with transY.value still at -100.  In
the hidden case the callback runs immediately and nothing else happens.
Otherwise the timer is cleared, the three running animations are
cancelled, and the staged reverse sequence is issued; completing the
final position command fires the callback (via completeHideAnimation)
and resets the config to hidden. -/
def hideToast (alreadyHidden : Bool) (animDuration : ℚ) : HideFx :=
  if alreadyHidden then
    { clearedTimer := false, cancelledPos := false, cancelledWidth := false,
      cancelledOpacity := false, opacityAnim := none, widthAnim := none,
      posAnim := none, callbackNow := true, firesCallbackOnComplete := false,
      resetsToHidden := false }
  else
    { clearedTimer := true, cancelledPos := true, cancelledWidth := true,
      cancelledOpacity := true,
      opacityAnim := some (withTiming 0 (animDuration / 2)),
      widthAnim := some (withDelay (animDuration / 2)
        (withTiming CONTAINER_SIZE (animDuration / 2))),
      posAnim := some (withDelay animDuration
        (withTiming (-100) animDuration)),
      callbackNow := false, firesCallbackOnComplete := true,
      resetsToHidden := true }

end ToastComponent

/-- A dismiss issued through the manager while the lifecycle state is
Hidden (no toast visible or animating).  ToastManager.hide does nothing
when no driver is registered, so the callback never runs; with a driver,
the component's hideToast takes its already-hidden early return and
invokes the wrapped callback immediately: isAnimating is cleared, the
caller's callback runs once, and processQueue follows.  The result is
the manager state, the number of times the caller's callback ran, and
the component effects (none when no driver is registered). -/
def dismissWhileHidden (now : Nat) (animDuration : ℚ) (s : MgrState) :
    MgrState × Nat × Option HideFx :=
  match s.toastRef with
  | none => (s, 0, none)
  | some _ =>
    (processQueue now { s with isAnimating := false }, 1,
     some (ToastComponent.hideToast true animDuration))

/-- Sample entry used for concrete instantiations. -/
def eA : Entry := { message := "A", kind := ToastType.info, options := none }

/-- Second sample entry used for concrete instantiations. -/
def eB : Entry := { message := "B", kind := ToastType.info, options := none }

/-- The pending-queue invariant: at most MAX_QUEUE_SIZE entries, none of
them with an empty or whitespace-only message. -/
def QueueInv (s : MgrState) : Prop :=
  s.queue.length ≤ MAX_QUEUE_SIZE ∧ ∀ e ∈ s.queue, trimEmpty e.message = false

instance (s : MgrState) : Decidable (QueueInv s) := by
  unfold QueueInv
  infer_instance

/-- States of the legacy manager reachable from construction through its
public operations: show, setToastRef, setAnimating, and the completion
callback of hide (which is also how the component's
updateAnimationStatus reports back, via setAnimating). -/
inductive LegacyReach : MgrState → Prop where
  | init : LegacyReach initState
  | showStep (now : Nat) (e : Entry) {s : MgrState} :
      LegacyReach s → LegacyReach (LegacyManager.show' now e s)
  | setRefStep (r : Option Unit) (now : Nat) {s : MgrState} :
      LegacyReach s → LegacyReach (LegacyManager.setToastRef r now s)
  | setAnimStep (b : Bool) (now : Nat) {s : MgrState} :
      LegacyReach s → LegacyReach (LegacyManager.setAnimating b now s)
  | hideStep (now : Nat) {s : MgrState} :
      LegacyReach s → LegacyReach (hideWrapped now s)

/-- States of the modular manager reachable from construction through
its public operations, including the hook entry point. -/
inductive ModularReach : MgrState → Prop where
  | init : ModularReach initState
  | showStep (now : Nat) (e : Entry) {s : MgrState} :
      ModularReach s → ModularReach (ModularManager.show' now e s)
  | hookStep (now : Nat) (e : Entry) {s : MgrState} :
      ModularReach s → ModularReach (hookShowToast now e s)
  | setRefStep (r : Option Unit) {s : MgrState} :
      ModularReach s → ModularReach (ModularManager.setToastRef r s)
  | setAnimStep (b : Bool) {s : MgrState} :
      ModularReach s → ModularReach (ModularManager.setAnimating b s)
  | hideStep (now : Nat) {s : MgrState} :
      ModularReach s → ModularReach (hideWrapped now s)

/-- A state in which an animation is in flight and nothing else has
happened yet. -/
def busyState : MgrState :=
  { toastRef := none, isAnimating := true, queue := [], lastToastTime := 0,
    waiters := 0, displayed := [] }

/-- A concrete idle state with a registered driver and two valid queued
requests. -/
def c4State : MgrState :=
  { toastRef := some (), isAnimating := false, queue := [eA, eB],
    lastToastTime := 0, waiters := 0, displayed := [] }

/-- A concrete idle state with one readiness waiter and one valid queued
request. -/
def c2State : MgrState :=
  { toastRef := none, isAnimating := false, queue := [eA],
    lastToastTime := 0, waiters := 1, displayed := [] }

/-- A concrete state in which the driver is registered, an animation has
just been running and one valid request is queued. -/
def c3State : MgrState :=
  { toastRef := some (), isAnimating := true, queue := [eA],
    lastToastTime := 0, waiters := 0, displayed := [] }

/-- An entry whose message is whitespace-only. -/
def eEmpty : Entry :=
  { message := " ", kind := ToastType.info, options := none }

/-- defaultDuration, the component's default display duration prop
(src/components/Toast.tsx line 30). -/
def defaultDuration : Nat := 4000

/-- defaultAnimationDuration, the component's default animation duration
prop (src/components/Toast.tsx line 31). -/
def defaultAnimationDuration : Nat := 400

/-- A concrete idle state with a registered driver and empty queue. -/
def c7State : MgrState :=
  { toastRef := some (), isAnimating := false, queue := [],
    lastToastTime := 0, waiters := 0, displayed := [] }

/-- processQueue does nothing while an animation is in flight. -/
theorem pq_busy (now : Nat) (s : MgrState) (h : s.isAnimating = true) :
    processQueue now s = s := by
  unfold processQueue
  cases hq : s.queue with
  | nil => rfl
  | cons t rest => simp [processQueueGo, h]

/-- Iterating processQueue does nothing while an animation is in flight. -/
theorem pq_iterate_busy (now : Nat) (n : Nat) (s : MgrState)
    (h : s.isAnimating = true) : (processQueue now)^[n] s = s := by
  induction n with
  | zero => rfl
  | succ k ih =>
    rw [Function.iterate_succ_apply, pq_busy now s h, ih]

/-- processQueue does nothing when no driver is registered. -/
theorem pq_noref (now : Nat) (s : MgrState) (h : s.toastRef = none) :
    processQueue now s = s := by
  unfold processQueue
  cases hq : s.queue with
  | nil => rfl
  | cons t rest =>
    simp only [processQueueGo, h]
    split <;> simp

/-- processQueue does nothing on an empty queue. -/
theorem pq_empty (now : Nat) (s : MgrState) (h : s.queue = []) :
    processQueue now s = s := by
  unfold processQueue
  rw [h]
  rfl

/-- When the manager is idle, a driver is registered and the oldest
queued entry has a non-empty trimmed message, processQueue pops that
entry, marks the manager animating, stamps lastToastTime and displays
it. -/
theorem pq_display (now : Nat) (s : MgrState) (a : Entry) (rest : List Entry)
    (hb : s.isAnimating = false) (hr : s.toastRef = some ())
    (hq : s.queue = a :: rest) (ha : trimEmpty a.message = false) :
    processQueue now s =
      { s with queue := rest, isAnimating := true, lastToastTime := now,
               displayed := s.displayed ++ [a] } := by
  unfold processQueue
  rw [hq]
  simp [processQueueGo, hb, hr, ha]

/-- When the manager is idle, a driver is registered and the oldest
queued entry has an empty trimmed message, processQueue discards that
entry and retries on the rest of the queue. -/
theorem pq_skip (now : Nat) (s : MgrState) (a : Entry) (rest : List Entry)
    (hb : s.isAnimating = false) (hr : s.toastRef = some ())
    (hq : s.queue = a :: rest) (ha : trimEmpty a.message = true) :
    processQueue now s = processQueue now { s with queue := rest } := by
  unfold processQueue
  rw [hq]
  simp [processQueueGo, hb, hr, ha]

/-- A legacy show call that arrives while the manager is animating or
within the throttle window never displays, leaves the animation flag and
the admission timestamp alone, and appends to the queue exactly when the
queue is below capacity. -/
theorem legacy_show_blocked (now : Nat) (e : Entry) (s : MgrState)
    (he : trimEmpty e.message = false)
    (hc : s.isAnimating = true ∨ now < s.lastToastTime + THROTTLE_DELAY) :
    (LegacyManager.show' now e s).displayed = s.displayed ∧
    (LegacyManager.show' now e s).isAnimating = s.isAnimating ∧
    (LegacyManager.show' now e s).lastToastTime = s.lastToastTime ∧
    (LegacyManager.show' now e s).queue =
      (if s.queue.length < MAX_QUEUE_SIZE then s.queue ++ [e] else s.queue) := by
  unfold LegacyManager.show'
  rw [he]
  by_cases hthr : now - s.lastToastTime < THROTTLE_DELAY
  · simp only [if_pos hthr, Bool.false_eq_true, if_false]
    by_cases hlen : s.queue.length < MAX_QUEUE_SIZE
    · simp [hlen]
    · simp [hlen]
  · have hbusy : s.isAnimating = true := by
      rcases hc with h | h
      · exact h
      · exfalso
        have : now - s.lastToastTime < THROTTLE_DELAY := by
          unfold THROTTLE_DELAY at h ⊢
          omega
        exact hthr this
    simp only [if_neg hthr, Bool.false_eq_true, if_false, hbusy, Bool.not_true,
      Bool.and_false, if_false]
    by_cases hlen : s.queue.length < MAX_QUEUE_SIZE
    · simp [hlen, hbusy]
    · simp [hlen, hbusy]

/-- Folding blocked legacy show calls over any request list never
displays, preserves the animation flag and the admission timestamp, and
keeps the queue within capacity. -/
theorem legacy_show_blocked_seq (reqs : List (Nat × Entry)) (s : MgrState)
    (hq : s.queue.length ≤ MAX_QUEUE_SIZE)
    (h : ∀ p ∈ reqs, trimEmpty p.2.message = false ∧
      (s.isAnimating = true ∨ p.1 < s.lastToastTime + THROTTLE_DELAY)) :
    (reqs.foldl (fun st p => LegacyManager.show' p.1 p.2 st) s).displayed
        = s.displayed ∧
    (reqs.foldl (fun st p => LegacyManager.show' p.1 p.2 st) s).queue.length
        ≤ MAX_QUEUE_SIZE ∧
    (reqs.foldl (fun st p => LegacyManager.show' p.1 p.2 st) s).isAnimating
        = s.isAnimating ∧
    (reqs.foldl (fun st p => LegacyManager.show' p.1 p.2 st) s).lastToastTime
        = s.lastToastTime := by
  induction reqs generalizing s with
  | nil => exact ⟨rfl, hq, rfl, rfl⟩
  | cons p ps ih =>
    have hp := h p (List.mem_cons_self p ps)
    have hrest := fun q hq2 => h q (List.mem_cons_of_mem p hq2)
    obtain ⟨hd, hb, hl, hqe⟩ := legacy_show_blocked p.1 p.2 s hp.1 hp.2
    have hq1 : (LegacyManager.show' p.1 p.2 s).queue.length ≤ MAX_QUEUE_SIZE := by
      rw [hqe]
      by_cases hlen : s.queue.length < MAX_QUEUE_SIZE
      · simp only [if_pos hlen, List.length_append, List.length_cons,
          List.length_nil]
        omega
      · simp only [if_neg hlen]
        exact hq
    have h1 : ∀ q ∈ ps, trimEmpty q.2.message = false ∧
        ((LegacyManager.show' p.1 p.2 s).isAnimating = true ∨
         q.1 < (LegacyManager.show' p.1 p.2 s).lastToastTime + THROTTLE_DELAY) := by
      intro q hq2
      rw [hb, hl]
      exact hrest q hq2
    obtain ⟨d1, d2, d3, d4⟩ := ih (LegacyManager.show' p.1 p.2 s) hq1 h1
    refine ⟨?_, d2, ?_, ?_⟩
    · rw [List.foldl_cons, d1, hd]
    · rw [List.foldl_cons, d3, hb]
    · rw [List.foldl_cons, d4, hl]

/-- The inner drain loop only removes entries, so it preserves the
queue invariant. -/
theorem pqGo_inv (now : Nat) (l : List Entry) (s : MgrState)
    (hl : s.queue = l) (h : QueueInv s) : QueueInv (processQueueGo now l s) := by
  induction l generalizing s with
  | nil => simpa [processQueueGo] using h
  | cons t rest ih =>
    obtain ⟨h1, h2⟩ := h
    simp only [processQueueGo]
    split
    · exact ⟨h1, h2⟩
    · split
      · exact ⟨h1, h2⟩
      · have hrest : QueueInv { s with queue := rest } := by
          constructor
          · simp only []
            rw [hl] at h1
            simp only [List.length_cons] at h1
            omega
          · intro e he
            exact h2 e (by rw [hl]; exact List.mem_cons_of_mem t he)
        split
        · exact ih { s with queue := rest } rfl hrest
        · exact hrest

/-- processQueue preserves the queue invariant. -/
theorem pq_inv (now : Nat) (s : MgrState) (h : QueueInv s) :
    QueueInv (processQueue now s) :=
  pqGo_inv now s.queue s rfl h

/-- Iterating processQueue preserves the queue invariant. -/
theorem pq_iterate_inv (now : Nat) (n : Nat) (s : MgrState) (h : QueueInv s) :
    QueueInv ((processQueue now)^[n] s) := by
  induction n generalizing s with
  | zero => exact h
  | succ k ih =>
    rw [Function.iterate_succ_apply]
    exact ih (processQueue now s) (pq_inv now s h)

/-- The legacy show preserves the queue invariant: it only enqueues a
message it has itself validated, and only below capacity. -/
theorem legacy_show_inv (now : Nat) (e : Entry) (s : MgrState)
    (h : QueueInv s) : QueueInv (LegacyManager.show' now e s) := by
  obtain ⟨h1, h2⟩ := h
  unfold LegacyManager.show'
  by_cases he : trimEmpty e.message = true
  · simp only [he, if_true]
    exact ⟨h1, h2⟩
  · have he' : trimEmpty e.message = false := by
      cases hx : trimEmpty e.message
      · rfl
      · exact absurd hx he
    rw [he']
    simp only [Bool.false_eq_true, if_false]
    split
    · split
      · rename_i hlen
        refine ⟨by simp only [List.length_append, List.length_cons,
            List.length_nil]; omega, ?_⟩
        intro x hx
        rcases List.mem_append.mp hx with hx | hx
        · exact h2 x hx
        · simp only [List.mem_cons, List.not_mem_nil, or_false] at hx
          rw [hx]
          exact he'
      · exact ⟨h1, h2⟩
    · split
      · exact ⟨h1, h2⟩
      · split
        · rename_i hlen
          refine ⟨by simp only [List.length_append, List.length_cons,
              List.length_nil]; omega, ?_⟩
          intro x hx
          rcases List.mem_append.mp hx with hx | hx
          · exact h2 x hx
          · simp only [List.mem_cons, List.not_mem_nil, or_false] at hx
            rw [hx]
            exact he'
        · exact ⟨h1, h2⟩

/-- The legacy setToastRef preserves the queue invariant. -/
theorem legacy_setToastRef_inv (r : Option Unit) (now : Nat) (s : MgrState)
    (h : QueueInv s) : QueueInv (LegacyManager.setToastRef r now s) := by
  unfold LegacyManager.setToastRef
  match r with
  | none => exact h
  | some u =>
    have h1 : QueueInv { s with toastRef := some u } := h
    have h2 := pq_iterate_inv now s.waiters { s with toastRef := some u } h1
    have h3 : QueueInv { ((processQueue now)^[s.waiters]
        { s with toastRef := some u }) with waiters := 0 } := h2
    exact pq_inv now _ h3

/-- The legacy setAnimating preserves the queue invariant. -/
theorem legacy_setAnimating_inv (b : Bool) (now : Nat) (s : MgrState)
    (h : QueueInv s) : QueueInv (LegacyManager.setAnimating b now s) := by
  unfold LegacyManager.setAnimating
  split
  · exact pq_inv now _ h
  · exact h

/-- The hide completion path preserves the queue invariant. -/
theorem hideWrapped_inv (now : Nat) (s : MgrState) (h : QueueInv s) :
    QueueInv (hideWrapped now s) := by
  unfold hideWrapped
  match hr : s.toastRef with
  | none => exact h
  | some u => exact pq_inv now _ h

/-- The modular show preserves the queue invariant: it never touches the
queue. -/
theorem modular_show_inv (now : Nat) (e : Entry) (s : MgrState)
    (h : QueueInv s) : QueueInv (ModularManager.show' now e s) := by
  unfold ModularManager.show'
  split
  · exact h
  · split
    · exact h
    · cases hr : s.toastRef with
      | none => simp only [hr]; exact h
      | some u => simp only [hr]; exact h

/-- Iterating processQueue does nothing on an empty queue. -/
theorem pq_iterate_empty (now : Nat) (n : Nat) (s : MgrState)
    (h : s.queue = []) : (processQueue now)^[n] s = s := by
  induction n with
  | zero => rfl
  | succ k ih =>
    rw [Function.iterate_succ_apply, pq_empty now s h, ih]

/-- Registering a driver with the legacy manager while an animation is
in flight stores the reference and clears the waiters; every drain
attempt is a no-op. -/
theorem legacy_setToastRef_busy (s : MgrState) (now : Nat)
    (hb : s.isAnimating = true) :
    LegacyManager.setToastRef (some ()) now s =
      { s with toastRef := some (), waiters := 0 } := by
  simp only [LegacyManager.setToastRef]
  rw [pq_iterate_busy now _ { s with toastRef := some () } hb]
  exact pq_busy now _ hb

/-- Registering a driver with the legacy manager while the queue is
empty stores the reference and clears the waiters; every drain attempt
finds nothing to do. -/
theorem legacy_setToastRef_qempty (s : MgrState) (now : Nat)
    (hq : s.queue = []) :
    LegacyManager.setToastRef (some ()) now s =
      { s with toastRef := some (), waiters := 0 } := by
  simp only [LegacyManager.setToastRef]
  rw [pq_iterate_empty now _ { s with toastRef := some () } hq]
  exact pq_empty now _ hq

/-- Registering a driver with the legacy manager while it is idle and a
valid entry heads the queue stores the reference, clears the waiters and
drains: the oldest entry is displayed, the manager becomes animating and
lastToastTime is stamped. -/
theorem legacy_setToastRef_drain (s : MgrState) (now : Nat) (a : Entry)
    (rest : List Entry) (hb : s.isAnimating = false) (hq : s.queue = a :: rest)
    (ha : trimEmpty a.message = false) :
    LegacyManager.setToastRef (some ()) now s =
      { s with toastRef := some (), waiters := 0, queue := rest,
               isAnimating := true, lastToastTime := now,
               displayed := s.displayed ++ [a] } := by
  simp only [LegacyManager.setToastRef]
  cases hw : s.waiters with
  | zero =>
    show processQueue now { s with toastRef := some (), waiters := 0 } = _
    rw [pq_display now { s with toastRef := some (), waiters := 0 } a rest hb
      rfl hq ha]
  | succ k =>
    have h1 : processQueue now { s with toastRef := some (), waiters := k + 1 } =
        { s with toastRef := some (), waiters := k + 1, queue := rest,
                 isAnimating := true, lastToastTime := now,
                 displayed := s.displayed ++ [a] } :=
      pq_display now _ a rest hb rfl hq ha
    show processQueue now
        { ((processQueue now)^[k + 1]
            { s with toastRef := some (), waiters := k + 1 }) with
          waiters := 0 } = _
    rw [Function.iterate_succ_apply, h1, pq_iterate_busy now k _ rfl,
      pq_busy now _ rfl]

/-- C5: in every reachable state of either manager, the pending queue
holds at most 2 entries and never holds an entry whose message is empty
or whitespace-only after trimming; every public operation preserves
this. -/
theorem toast_c5 :
    (∀ s : MgrState, LegacyReach s → QueueInv s) ∧
    (∀ s : MgrState, ModularReach s → QueueInv s) := by
  constructor
  · intro s h
    induction h with
    | init => decide
    | showStep now e h ih => exact legacy_show_inv now e _ ih
    | setRefStep r now h ih => exact legacy_setToastRef_inv r now _ ih
    | setAnimStep b now h ih => exact legacy_setAnimating_inv b now _ ih
    | hideStep now h ih => exact hideWrapped_inv now _ ih
  · intro s h
    induction h with
    | init => decide
    | showStep now e h ih => exact modular_show_inv now e _ ih
    | hookStep now e h ih =>
      unfold hookShowToast
      split
      · exact ih
      · exact modular_show_inv now e _ ih
    | setRefStep r h ih => exact ih
    | setAnimStep b h ih => exact ih
    | hideStep now h ih => exact hideWrapped_inv now _ ih

/-- Witness for C5: the invariant holds at two concrete reachable
states. -/
theorem toast_c5_witness :
    QueueInv initState ∧
    QueueInv (hideWrapped 500 (LegacyManager.show' 100 eA
      (LegacyManager.setToastRef (some ()) 0 initState))) :=
  ⟨toast_c5.1 initState LegacyReach.init,
   toast_c5.1 _ (LegacyReach.hideStep 500 (LegacyReach.showStep 100 eA
     (LegacyReach.setRefStep (some ()) 0 LegacyReach.init)))⟩

/-- C1: a valid request arriving while the legacy manager is animating
or within 300 ms of the last admission is never displayed immediately;
it is appended to the queue when the queue holds fewer than 2 entries
and silently dropped otherwise, and any sequence of such requests with
no busy-release admits nothing and leaves at most 2 entries queued.  The
final conjunct records the amendment: the modular manager drops such
requests outright instead of enqueueing them. -/
theorem toast_c1 (s : MgrState) (now : Nat) (e : Entry)
    (reqs : List (Nat × Entry)) (m : MgrState)
    (hq : s.queue.length ≤ MAX_QUEUE_SIZE)
    (he : trimEmpty e.message = false)
    (hc : s.isAnimating = true ∨ now < s.lastToastTime + THROTTLE_DELAY)
    (hreqs : ∀ p ∈ reqs, trimEmpty p.2.message = false ∧
      (s.isAnimating = true ∨ p.1 < s.lastToastTime + THROTTLE_DELAY))
    (hm : m.isAnimating = true ∨ now < m.lastToastTime + THROTTLE_DELAY) :
    ((LegacyManager.show' now e s).displayed = s.displayed ∧
     (LegacyManager.show' now e s).queue =
       (if s.queue.length < MAX_QUEUE_SIZE then s.queue ++ [e]
        else s.queue)) ∧
    ((reqs.foldl (fun st p => LegacyManager.show' p.1 p.2 st) s).displayed
        = s.displayed ∧
     (reqs.foldl (fun st p => LegacyManager.show' p.1 p.2 st) s).queue.length
        ≤ MAX_QUEUE_SIZE) ∧
    ModularManager.show' now e m = m := by
  obtain ⟨h1, _, _, h4⟩ := legacy_show_blocked now e s he hc
  obtain ⟨g1, g2, _, _⟩ := legacy_show_blocked_seq reqs s hq hreqs
  refine ⟨⟨h1, h4⟩, ⟨g1, g2⟩, ?_⟩
  have hcond : now - m.lastToastTime < THROTTLE_DELAY ∨ m.isAnimating = true := by
    rcases hm with h | h
    · exact Or.inr h
    · left
      simp only [THROTTLE_DELAY] at h ⊢
      omega
  unfold ModularManager.show'
  rw [he]
  simp only [Bool.false_eq_true, if_false]
  rw [if_pos hcond]

/-- Witness for C1 at a concrete busy state with three back-to-back
requests. -/
theorem toast_c1_witness :
    ((LegacyManager.show' 0 eA busyState).displayed = busyState.displayed ∧
     (LegacyManager.show' 0 eA busyState).queue =
       (if busyState.queue.length < MAX_QUEUE_SIZE then busyState.queue ++ [eA]
        else busyState.queue)) ∧
    (([((0 : Nat), eA), ((1 : Nat), eA), ((2 : Nat), eA)].foldl
        (fun st p => LegacyManager.show' p.1 p.2 st) busyState).displayed
        = busyState.displayed ∧
     ([((0 : Nat), eA), ((1 : Nat), eA), ((2 : Nat), eA)].foldl
        (fun st p => LegacyManager.show' p.1 p.2 st) busyState).queue.length
        ≤ MAX_QUEUE_SIZE) ∧
    ModularManager.show' 0 eA busyState = busyState :=
  toast_c1 busyState 0 eA [(0, eA), (1, eA), (2, eA)] busyState (by decide)
    (by decide) (by decide) (by decide) (by decide)

/-- Counterexample for C1 as stated: from the initial state of the
modular manager, a valid request at time 100 is inside the throttle
window and the queue is below capacity, yet the request is dropped, not
enqueued. -/
theorem toast_c1_cex :
    100 < initState.lastToastTime + THROTTLE_DELAY ∧
    initState.queue.length < MAX_QUEUE_SIZE ∧
    trimEmpty eA.message = false ∧
    (ModularManager.show' 100 eA initState).queue = [] ∧
    (ModularManager.show' 100 eA initState).queue ≠ initState.queue ++ [eA] := by
  decide

/-- C4: the drain is strictly FIFO.  With the manager idle, a driver
registered and a non-empty queue, processQueue removes the oldest entry:
an empty-after-trim head is discarded and the drain retries on the rest,
and a valid head is displayed with isBusy set and lastAdmittedAt
stamped.  Consequently, for two valid requests queued in order A then B,
A is displayed on the first drain and B on the drain triggered by the
next busy-release. -/
theorem toast_c4 (s : MgrState) (now now2 : Nat) (a b : Entry)
    (hb : s.isAnimating = false) (hr : s.toastRef = some ()) :
    (∀ t rest, s.queue = t :: rest → trimEmpty t.message = true →
      processQueue now s = processQueue now { s with queue := rest }) ∧
    (∀ t rest, s.queue = t :: rest → trimEmpty t.message = false →
      processQueue now s =
        { s with queue := rest, isAnimating := true, lastToastTime := now,
                 displayed := s.displayed ++ [t] }) ∧
    (s.queue = [a, b] → trimEmpty a.message = false →
     trimEmpty b.message = false →
      (processQueue now s).displayed = s.displayed ++ [a] ∧
      (processQueue now s).queue = [b] ∧
      (LegacyManager.setAnimating false now2 (processQueue now s)).displayed
        = s.displayed ++ [a, b]) := by
  refine ⟨?_, ?_, ?_⟩
  · intro t rest hqe ht
    exact pq_skip now s t rest hb hr hqe ht
  · intro t rest hqe ht
    exact pq_display now s t rest hb hr hqe ht
  · intro hqe ha hbb
    have h1 : processQueue now s =
        { s with queue := [b], isAnimating := true, lastToastTime := now,
                 displayed := s.displayed ++ [a] } :=
      pq_display now s a [b] hb hr hqe ha
    refine ⟨by rw [h1], by rw [h1], ?_⟩
    rw [h1]
    show (processQueue now2
      { toastRef := s.toastRef, isAnimating := false, queue := [b],
        lastToastTime := now, waiters := s.waiters,
        displayed := s.displayed ++ [a] }).displayed = s.displayed ++ [a, b]
    rw [pq_display now2
      { toastRef := s.toastRef, isAnimating := false, queue := [b],
        lastToastTime := now, waiters := s.waiters,
        displayed := s.displayed ++ [a] } b [] rfl hr rfl hbb]
    simp [List.append_assoc]

/-- Witness for C4 at the concrete two-entry queue state. -/
theorem toast_c4_witness :
    (processQueue 5 c4State).displayed = c4State.displayed ++ [eA] ∧
    (processQueue 5 c4State).queue = [eB] ∧
    (LegacyManager.setAnimating false 6 (processQueue 5 c4State)).displayed
      = c4State.displayed ++ [eA, eB] :=
  (toast_c4 c4State 5 6 eA eB rfl rfl).2.2 rfl (by decide) (by decide)

/-- C2 (amended): registering a non-null driver with the legacy manager
notifies and clears all readiness waiters and then attempts a drain
(no-op while busy or on an empty queue; displays the oldest valid queued
entry when idle), but a null argument is ignored outright — the old
driver reference is kept.  The modular manager's setDriver merely
assigns the reference (null does clear it and the queue is untouched),
with no waiter notification and no drain, and after a modular
unregistration subsequent requests neither display nor enqueue. -/
theorem toast_c2 :
    (∀ (s : MgrState) (now : Nat),
      LegacyManager.setToastRef none now s = s) ∧
    (∀ (s : MgrState) (now : Nat), s.isAnimating = true →
      LegacyManager.setToastRef (some ()) now s =
        { s with toastRef := some (), waiters := 0 }) ∧
    (∀ (s : MgrState) (now : Nat), s.queue = [] →
      LegacyManager.setToastRef (some ()) now s =
        { s with toastRef := some (), waiters := 0 }) ∧
    (∀ (s : MgrState) (now : Nat) (a : Entry) (rest : List Entry),
      s.isAnimating = false → s.queue = a :: rest →
      trimEmpty a.message = false →
      LegacyManager.setToastRef (some ()) now s =
        { s with toastRef := some (), waiters := 0, queue := rest,
                 isAnimating := true, lastToastTime := now,
                 displayed := s.displayed ++ [a] }) ∧
    (∀ (s : MgrState) (r : Option Unit),
      (ModularManager.setToastRef r s).toastRef = r ∧
      (ModularManager.setToastRef r s).queue = s.queue ∧
      (ModularManager.setToastRef r s).displayed = s.displayed ∧
      (ModularManager.setToastRef r s).waiters = s.waiters ∧
      (ModularManager.setToastRef r s).isAnimating = s.isAnimating) ∧
    (∀ (s : MgrState) (now : Nat) (e : Entry),
      (ModularManager.show' now e (ModularManager.setToastRef none s)).displayed
        = s.displayed ∧
      (ModularManager.show' now e (ModularManager.setToastRef none s)).queue
        = s.queue) := by
  refine ⟨fun s now => rfl, ?_, ?_, ?_, fun s r => ⟨rfl, rfl, rfl, rfl, rfl⟩, ?_⟩
  · intro s now hb
    exact legacy_setToastRef_busy s now hb
  · intro s now hq
    exact legacy_setToastRef_qempty s now hq
  · intro s now a rest hb hq ha
    exact legacy_setToastRef_drain s now a rest hb hq ha
  · intro s now e
    unfold ModularManager.show' ModularManager.setToastRef
    split
    · exact ⟨rfl, rfl⟩
    · split
      · exact ⟨rfl, rfl⟩
      · exact ⟨rfl, rfl⟩

/-- Witness for C2: registering a driver on a concrete state with a
queued request notifies the waiter, clears it and drains the queue. -/
theorem toast_c2_witness :
    LegacyManager.setToastRef (some ()) 7 c2State =
      { c2State with toastRef := some (), waiters := 0, queue := [],
                     isAnimating := true, lastToastTime := 7,
                     displayed := c2State.displayed ++ [eA] } :=
  toast_c2.2.2.2.1 c2State 7 eA [] rfl rfl (by decide)

/-- Counterexample for C2 as stated: after the legacy manager has a
driver, passing null to setToastRef does not null the reference, and a
later valid request is displayed immediately instead of being enqueued.
-/
theorem toast_c2_cex :
    (LegacyManager.setToastRef none 1
      (LegacyManager.setToastRef (some ()) 0 initState)).toastRef ≠ none ∧
    (LegacyManager.show' 1000 eB (LegacyManager.setToastRef none 1
      (LegacyManager.setToastRef (some ()) 0 initState))).displayed = [eB] ∧
    (LegacyManager.show' 1000 eB (LegacyManager.setToastRef none 1
      (LegacyManager.setToastRef (some ()) 0 initState))).queue = [] := by
  decide

/-- C3 (amended): in the legacy manager every setAnimating(false) call
triggers a drain attempt — after it, with an empty queue or no driver
the manager is simply idle, and with a driver and a valid oldest queued
entry that entry is displayed automatically; in the modular manager
setAnimating only records the flag and never drains. -/
theorem toast_c3 :
    (∀ (s : MgrState) (now : Nat), s.queue = [] →
      LegacyManager.setAnimating false now s =
        { s with isAnimating := false }) ∧
    (∀ (s : MgrState) (now : Nat), s.toastRef = none →
      LegacyManager.setAnimating false now s =
        { s with isAnimating := false }) ∧
    (∀ (s : MgrState) (now : Nat) (a : Entry) (rest : List Entry),
      s.toastRef = some () → s.queue = a :: rest →
      trimEmpty a.message = false →
      LegacyManager.setAnimating false now s =
        { s with isAnimating := true, queue := rest, lastToastTime := now,
                 displayed := s.displayed ++ [a] }) ∧
    (∀ (s : MgrState) (b : Bool),
      (ModularManager.setAnimating b s).queue = s.queue ∧
      (ModularManager.setAnimating b s).displayed = s.displayed ∧
      (ModularManager.setAnimating b s).isAnimating = b) := by
  refine ⟨?_, ?_, ?_, fun s b => ⟨rfl, rfl, rfl⟩⟩
  · intro s now hq
    show processQueue now { s with isAnimating := false } = _
    exact pq_empty now _ hq
  · intro s now hr
    show processQueue now { s with isAnimating := false } = _
    exact pq_noref now _ hr
  · intro s now a rest hr hq ha
    show processQueue now { s with isAnimating := false } = _
    exact pq_display now { s with isAnimating := false } a rest rfl hr hq ha

/-- Witness for C3: clearing the busy flag on the concrete queued state
drains and displays the queued request. -/
theorem toast_c3_witness :
    LegacyManager.setAnimating false 9 c3State =
      { c3State with isAnimating := true, queue := [], lastToastTime := 9,
                     displayed := c3State.displayed ++ [eA] } :=
  toast_c3.2.2.1 c3State 9 eA [] rfl rfl (by decide)

/-- Counterexample for C3 as stated: in the modular manager a
setAnimating(false) call on the same concrete state triggers no drain —
the queued request stays queued and nothing is displayed. -/
theorem toast_c3_cex :
    (ModularManager.setAnimating false c3State).queue = [eA] ∧
    (ModularManager.setAnimating false c3State).displayed = [] ∧
    (ModularManager.setAnimating false c3State).displayed ≠ [eA] := by
  decide

/-- C6 (amended): a request whose message is empty or whitespace-only
after trimming changes nothing at the hook entry point and at either
manager's admission; at the component display entry point it admits and
enqueues nothing and leaves the queue, lastAdmittedAt and driver
reference unchanged, but it does reset the busy flag to false
(updateAnimationStatus(false)) before returning, rather than leaving all
state unchanged. -/
theorem toast_c6 (s : MgrState) (now : Nat) (e : Entry)
    (he : trimEmpty e.message = true) :
    hookShowToast now e s = s ∧
    ModularManager.show' now e s = s ∧
    LegacyManager.show' now e s = s ∧
    (ToastComponent.show' defaultDuration defaultAnimationDuration e.message
      e.kind e.options s).1 = { s with isAnimating := false } ∧
    (ToastComponent.show' defaultDuration defaultAnimationDuration e.message
      e.kind e.options s).2 = none := by
  refine ⟨?_, ?_, ?_, ?_, ?_⟩
  · unfold hookShowToast
    rw [he]
    simp
  · unfold ModularManager.show'
    rw [he]
    simp
  · unfold LegacyManager.show'
    rw [he]
    simp
  · unfold ToastComponent.show'
    rw [he]
    simp [ModularManager.setAnimating]
  · unfold ToastComponent.show'
    rw [he]
    simp

/-- Witness for C6 at a whitespace-only message and the initial state.
-/
theorem toast_c6_witness :
    hookShowToast 0 eEmpty initState = initState ∧
    ModularManager.show' 0 eEmpty initState = initState ∧
    LegacyManager.show' 0 eEmpty initState = initState ∧
    (ToastComponent.show' defaultDuration defaultAnimationDuration
      eEmpty.message eEmpty.kind eEmpty.options initState).1
      = { initState with isAnimating := false } ∧
    (ToastComponent.show' defaultDuration defaultAnimationDuration
      eEmpty.message eEmpty.kind eEmpty.options initState).2 = none :=
  toast_c6 initState 0 eEmpty (by decide)

/-- Counterexample for C6 as stated: while the manager is busy, a
whitespace-only message sent to the component display entry point resets
the busy flag, so state does change there. -/
theorem toast_c6_cex :
    busyState.isAnimating = true ∧
    (ToastComponent.show' defaultDuration defaultAnimationDuration
      " " ToastType.info none busyState).1 ≠ busyState ∧
    (ToastComponent.show' defaultDuration defaultAnimationDuration
      " " ToastType.info none busyState).1.isAnimating = false := by
  decide

/-- C7 (amended): dismiss while the lifecycle state is Hidden behaves
differently with and without a driver.  With a registered driver the
callback is invoked exactly once and no retract transition or animation
command is issued (with an empty queue the only state change is clearing
the busy flag; the drain attempt that follows may display a queued
request).  With no driver registered the call is a complete no-op and
the callback is never invoked. -/
theorem toast_c7 (s : MgrState) (now : Nat) (d : ℚ) :
    (s.toastRef = none → dismissWhileHidden now d s = (s, 0, none)) ∧
    (s.toastRef = some () →
      (dismissWhileHidden now d s).2.1 = 1 ∧
      (dismissWhileHidden now d s).2.2 = some (ToastComponent.hideToast true d) ∧
      (ToastComponent.hideToast true d).posAnim = none ∧
      (ToastComponent.hideToast true d).opacityAnim = none ∧
      (ToastComponent.hideToast true d).widthAnim = none ∧
      (ToastComponent.hideToast true d).callbackNow = true ∧
      (s.queue = [] →
        (dismissWhileHidden now d s).1 = { s with isAnimating := false })) := by
  constructor
  · intro hr
    unfold dismissWhileHidden
    rw [hr]
  · intro hr
    unfold dismissWhileHidden
    rw [hr]
    refine ⟨rfl, rfl, rfl, rfl, rfl, rfl, ?_⟩
    intro hq
    exact pq_empty now _ hq

/-- Witness for C7: concrete dismissals with and without a driver. -/
theorem toast_c7_witness :
    dismissWhileHidden 0 400 initState = (initState, 0, none) ∧
    (dismissWhileHidden 3 400 c7State).2.1 = 1 ∧
    (dismissWhileHidden 3 400 c7State).1 = { c7State with isAnimating := false } :=
  ⟨(toast_c7 initState 0 400).1 rfl,
   ((toast_c7 c7State 3 400).2 rfl).1,
   ((toast_c7 c7State 3 400).2 rfl).2.2.2.2.2.2 rfl⟩

/-- Counterexample for C7 as stated: with no driver registered, a
dismiss issued while Hidden never invokes its callback at all. -/
theorem toast_c7_cex :
    initState.toastRef = none ∧
    (dismissWhileHidden 0 400 initState).2.1 ≠ 1 := by
  decide

/-- C8: dismissing a visible toast first clears the pending timer and
cancels the three running transitions, then issues the staged reverse
sequence — text opacity to 0 over half the animation duration with no
delay, container width back to the collapsed baseline CONTAINER_SIZE
over half the duration after a half-duration delay, and position
off-screen to -100 over the full duration after a full-duration delay —
and completion of that final position transition fires the completion
callback exactly once (it is not invoked synchronously) and resets the
lifecycle state to Hidden. -/
theorem toast_c8 (d : ℚ) :
    (ToastComponent.hideToast false d).clearedTimer = true ∧
    (ToastComponent.hideToast false d).cancelledPos = true ∧
    (ToastComponent.hideToast false d).cancelledWidth = true ∧
    (ToastComponent.hideToast false d).cancelledOpacity = true ∧
    (ToastComponent.hideToast false d).opacityAnim =
      some { target := 0, delay := 0, duration := d / 2 } ∧
    (ToastComponent.hideToast false d).widthAnim =
      some { target := CONTAINER_SIZE, delay := d / 2, duration := d / 2 } ∧
    (ToastComponent.hideToast false d).posAnim =
      some { target := -100, delay := d, duration := d } ∧
    (ToastComponent.hideToast false d).firesCallbackOnComplete = true ∧
    (ToastComponent.hideToast false d).resetsToHidden = true ∧
    (ToastComponent.hideToast false d).callbackNow = false := by
  unfold ToastComponent.hideToast withTiming withDelay
  simp

/-- C9: in the modular manager, a valid request that is neither
throttled nor busy but arrives with no driver registered is neither
displayed nor enqueued, yet lastToastTime is still stamped, so every
further request within the next 300 ms is rejected by the throttle
check. -/
theorem toast_c9 (s : MgrState) (now : Nat) (e : Entry)
    (he : trimEmpty e.message = false)
    (hthr : s.lastToastTime + THROTTLE_DELAY ≤ now)
    (hb : s.isAnimating = false) (hr : s.toastRef = none) :
    (ModularManager.show' now e s).displayed = s.displayed ∧
    (ModularManager.show' now e s).queue = s.queue ∧
    (ModularManager.show' now e s).isAnimating = false ∧
    (ModularManager.show' now e s).lastToastTime = now ∧
    (∀ (now2 : Nat) (e2 : Entry), now2 < now + THROTTLE_DELAY →
      ModularManager.show' now2 e2 (ModularManager.show' now e s)
        = ModularManager.show' now e s) := by
  have hcond : ¬(now - s.lastToastTime < THROTTLE_DELAY ∨
      s.isAnimating = true) := by
    rw [hb]
    simp only [Bool.false_eq_true, or_false]
    simp only [THROTTLE_DELAY] at hthr ⊢
    omega
  have hs : ModularManager.show' now e s = { s with lastToastTime := now } := by
    unfold ModularManager.show'
    rw [he]
    simp only [Bool.false_eq_true, if_false]
    rw [if_neg hcond, hr]
  rw [hs]
  refine ⟨rfl, rfl, hb, rfl, ?_⟩
  intro now2 e2 h2
  unfold ModularManager.show'
  by_cases he2 : trimEmpty e2.message = true
  · rw [he2]
    simp
  · have he2' : trimEmpty e2.message = false := by
      cases hx : trimEmpty e2.message
      · rfl
      · exact absurd hx he2
    rw [he2']
    simp only [Bool.false_eq_true, if_false]
    rw [if_pos]
    left
    show now2 - ({ s with lastToastTime := now } : MgrState).lastToastTime
      < THROTTLE_DELAY
    simp only [THROTTLE_DELAY] at h2 ⊢
    omega

/-- Witness for C9: from the initial modular state, a valid request at
time 1000 with no driver stamps the throttle clock and a valid request
at time 1100 is then rejected. -/
theorem toast_c9_witness :
    (ModularManager.show' 1000 eA initState).displayed
      = initState.displayed ∧
    (ModularManager.show' 1000 eA initState).queue = initState.queue ∧
    (ModularManager.show' 1000 eA initState).lastToastTime = 1000 ∧
    ModularManager.show' 1100 eB (ModularManager.show' 1000 eA initState)
      = ModularManager.show' 1000 eA initState := by
  have h := toast_c9 initState 1000 eA (by decide) (by decide) rfl rfl
  exact ⟨h.1, h.2.1, h.2.2.2.1, h.2.2.2.2 1100 eB (by decide)⟩

/-- C10: at the component entry point, options with duration 0 or
animationDuration 0 behave exactly like omitted options — the JS
logical-or against the mount defaults turns the falsy 0 into the
defaults 4000 ms and 400 ms. -/
theorem toast_c10 (s : MgrState) (msg : String) (k : ToastType)
    (hm : trimEmpty msg = false) :
    ToastComponent.show' defaultDuration defaultAnimationDuration msg k
        (some { duration := some 0, animationDuration := some 0 }) s
      = ToastComponent.show' defaultDuration defaultAnimationDuration msg k
          none s ∧
    (ToastComponent.show' defaultDuration defaultAnimationDuration msg k
        (some { duration := some 0, animationDuration := some 0 }) s).2.map
        (fun fx => (fx.config.duration, fx.config.animationDuration))
      = some (defaultDuration, defaultAnimationDuration) := by
  constructor
  · unfold ToastComponent.show'
    rw [hm]
    simp [orDefault]
  · unfold ToastComponent.show' ToastComponent.showToast
    rw [hm]
    simp [orDefault, hm]

/-- Witness for C10 with a concrete message. -/
theorem toast_c10_witness :
    ToastComponent.show' defaultDuration defaultAnimationDuration "A"
        ToastType.info
        (some { duration := some 0, animationDuration := some 0 }) initState
      = ToastComponent.show' defaultDuration defaultAnimationDuration "A"
          ToastType.info none initState ∧
    (ToastComponent.show' defaultDuration defaultAnimationDuration "A"
        ToastType.info
        (some { duration := some 0, animationDuration := some 0 })
        initState).2.map
        (fun fx => (fx.config.duration, fx.config.animationDuration))
      = some (defaultDuration, defaultAnimationDuration) :=
  toast_c10 initState "A" ToastType.info (by decide)
